import Mathlib

/-!
Verification development for the `databricks-util` repository.

Two components are embedded, faithfully to the Python sources:

* `src/identifica_obligados_facturar/FE_annotate_RUT_y_210.py`:
  `extraer_responsabilidades_rut` — registry enrichment of taxpayer
  records.  Spark dataframes are embedded as Lean lists of rows; a
  window-`row_number`-then-`filter(rank == 1)` step over a window ordered
  by a column descending is embedded as the per-partition maximum of that
  column (first occurrence winning on ties, the one deterministic
  refinement of Spark's unspecified tie order).

* `src/variables/post_proceso_consultas.py`: `lookup_name_by_year` —
  fiscal-variable metadata lookup.  The pandas dataframe is embedded as a
  list of rows, each an association list from column names to cells; a
  cell is missing (`NaN`/`None`), a number, or a string.  The module-level
  global `DF_METADATA` and the system-clock default for `current_year`
  are passed as explicit parameters.

String primitives of the sources (`strip`, `casefold`/lowercase matching,
`str.join`, regular-expression matching) are embedded as structurally
recursive functions over `List Char`, so every definition evaluates by
kernel reduction.  Digits are modelled as ASCII digits and `.` in the
regular expression as any character (the sources are only ever applied to
newline-free ASCII-or-accented-Latin codes, where both readings agree).
-/

set_option autoImplicit false

namespace DatabricksUtil

/-! ## Character-list string primitives -/

/-- Python `str.strip` on the underlying characters. -/
def trimChars (cs : List Char) : List Char :=
  ((cs.dropWhile Char.isWhitespace).reverse.dropWhile Char.isWhitespace).reverse

/-- `l` starts with the pattern `p`. -/
def charsStartWith : List Char → List Char → Bool
  | _, [] => true
  | [], _ :: _ => false
  | c :: cs, p :: ps => c == p && charsStartWith cs ps

/-- `p` occurs contiguously somewhere in `l`. -/
def charsContain : List Char → List Char → Bool
  | [], p => p.isEmpty
  | c :: cs, p => charsStartWith (c :: cs) p || charsContain cs p

/-- Case-insensitive substring test, as Spark's `rlike "(?i)<literal>"` and
Python's `re.IGNORECASE` perform on the letters involved here. -/
def containsCI (pat s : String) : Bool :=
  charsContain (s.data.map Char.toLower) (pat.data.map Char.toLower)

/-- Python `sep.join parts`. -/
def joinSep (sep : String) : List String → String
  | [] => ""
  | [p] => p
  | p :: q :: ps => p ++ sep ++ joinSep sep (q :: ps)

/-! ## Registry enrichment (`FE_annotate_RUT_y_210.py`)

`RegistryRow` is one row of the `int_personas` table as the query of
lines 35–39 returns it: the join key `NUM_NIT`, the recency column
`FEC_CAMBIO` (a timestamp, embedded as `Int`), five nullable boolean
responsibility indicators, the taxpayer-type text and the establishment
count. -/

structure RegistryRow where
  num_nit : String
  fec_cambio : Int
  ind_tiene_resp_47 : Option Bool
  ind_tiene_resp_48 : Option Bool
  ind_tiene_resp_33 : Option Bool
  ind_tiene_resp_16 : Option Bool
  ind_tiene_resp_52 : Option Bool
  nom_tipo_contribuyente : String
  num_establecimientos : Int
deriving DecidableEq, Repr

/-- An input taxpayer record: an arbitrary row, embedded as an association
list from column names to (stringified) values. -/
structure InputRecord where
  cols : List (String × String)
deriving DecidableEq, Repr

/-- Reading one column of an input record (`row[name]` / `df[name]`). -/
def getField (r : InputRecord) (c : String) : Option String :=
  r.cols.lookup c

/-- Line 31: the distinct identifiers of the input, read from the column
literally named `'numero_identificacion'` in the source. -/
def distinctIdsFrom (input : List InputRecord) (field : String) : List String :=
  (input.filterMap (fun r => getField r field)).dedup

/-- Lines 35–42: `SELECT DISTINCT ... WHERE NUM_NIT IN (nits)` against the
external `int_personas` table. -/
def fetch_int_personas (int_personas : List RegistryRow) (nits : List String) :
    List RegistryRow :=
  (int_personas.filter (fun r => nits.contains r.num_nit)).dedup

/-- How many fetched rows carry the identifier `n` (the `groupBy('NUM_NIT').count()`). -/
def countNit (rows : List RegistryRow) (n : String) : Nat :=
  (rows.filter (fun r => r.num_nit == n)).length

/-- Lines 47–52: the identifiers appearing on more than one fetched row. -/
def duplicated_nits (rows : List RegistryRow) : List String :=
  ((rows.map (fun r => r.num_nit)).dedup).filter (fun n => 1 < countNit rows n)

/-- Line 55: rows whose identifier is not duplicated (`left_anti` join). -/
def df_non_dupes (rows : List RegistryRow) : List RegistryRow :=
  rows.filter (fun r => !(duplicated_nits rows).contains r.num_nit)

/-- Line 56: rows whose identifier is duplicated (`inner` join). -/
def df_dupes (rows : List RegistryRow) : List RegistryRow :=
  rows.filter (fun r => (duplicated_nits rows).contains r.num_nit)

/-- Lines 64–72: per `NUM_NIT` partition, `row_number` over the window
ordered by `FEC_CAMBIO` descending, keeping the row ranked 1 — that is,
for each duplicated identifier, the fetched row with the maximal
`FEC_CAMBIO` (`List.argmax`, first occurrence winning on equal dates). -/
def df_dupes_cleaned (rows : List RegistryRow) : List RegistryRow :=
  (duplicated_nits rows).filterMap (fun n =>
    ((df_dupes rows).filter (fun r => r.num_nit == n)).argmax (fun r => r.fec_cambio))

/-- Lines 84–87: deduplication by `NUM_NIT` keeping the first occurrence in
dataframe order (`row_number` over `monotonically_increasing_id`). -/
def keepFirstPerNit : List RegistryRow → List String → List RegistryRow
  | [], _ => []
  | r :: rs, seen =>
    if seen.contains r.num_nit then keepFirstPerNit rs seen
    else r :: keepFirstPerNit rs (r.num_nit :: seen)

/-- Lines 81–87: the union of unique rows and cleaned duplicates
(`unionByName`), followed by the first-occurrence deduplication. -/
def df_clean (rows : List RegistryRow) : List RegistryRow :=
  keepFirstPerNit (df_non_dupes rows ++ df_dupes_cleaned rows) []

/-- Lines 90–93: `when(col('IND_TIENE_RESP_52') == True, 'SÍ').otherwise('No')`.
Under Spark's three-valued logic `null == True` is `null`, which `when`
does not take, so only the value `true` yields `"SÍ"`. -/
def marcaResp52 (b : Option Bool) : String :=
  if b = some true then "SÍ" else "No"

/-- A cleaned registry row together with its derived `marca_resp_52` column. -/
structure CleanRow where
  row : RegistryRow
  marca_resp_52 : String
deriving DecidableEq, Repr

/-- The cleaned registry set that line 96 joins against: one row per
surviving identifier, annotated with `marca_resp_52`. -/
def df_with_marca (rows : List RegistryRow) : List CleanRow :=
  (df_clean rows).map (fun r => ⟨r, marcaResp52 r.ind_tiene_resp_52⟩)

/-- Lines 100–105: normalization of `NOM_TIPO_CONTRIBUYENTE` by
case-insensitive substring match. -/
def normTipoContribuyente (s : String) : String :=
  if containsCI "persona nat" s then "Persona Natural"
  else if containsCI "persona jur" s then "Persona Jurídica"
  else s

/-- One row of the joined output: the input record, the matched registry
row (with its taxpayer type already normalized by lines 100–105) and the
derived `marca_resp_52`. -/
structure OutputRow where
  record : InputRecord
  reg : RegistryRow
  marca_resp_52 : String
deriving DecidableEq, Repr

/-- Lines 96–105: inner join of the input records with the cleaned registry
on equality between the input column named `field` and `NUM_NIT`, then the
`withColumn` normalization of the taxpayer type. -/
def joinOn (field : String) (input : List InputRecord) (clean : List CleanRow) :
    List OutputRow :=
  input.flatMap (fun rec =>
    (clean.filter (fun c => getField rec field == some c.row.num_nit)).map
      (fun c =>
        { record := rec
          reg := { c.row with
                   nom_tipo_contribuyente :=
                     normTipoContribuyente c.row.nom_tipo_contribuyente }
          marca_resp_52 := c.marca_resp_52 }))

/-- Lines 6–107: the whole enrichment, for an input already in the native
tabular form.  The source reads the identifiers from the literal column
`'numero_identificacion'` (line 31) and joins on that same literal column
(line 98); the parameter `nombre_campo_rut` is received but never used. -/
def extraer_responsabilidades_rut (input : List InputRecord)
    (nombre_campo_rut : String) (int_personas : List RegistryRow) :
    List OutputRow :=
  let fetched :=
    fetch_int_personas int_personas (distinctIdsFrom input "numero_identificacion")
  joinOn "numero_identificacion" input (df_with_marca fetched)

/-- Modelled from the spec (claim C3): an enrichment whose extraction and
join both use the column named by `id_field`.  This is the reading the
spec's contract `enrich(records, id_field)` describes; it is compared
against the source's behaviour. -/
def enrichSpec (input : List InputRecord) (id_field : String)
    (int_personas : List RegistryRow) : List OutputRow :=
  let fetched := fetch_int_personas int_personas (distinctIdsFrom input id_field)
  joinOn id_field input (df_with_marca fetched)

/-! ## The duck-typed input check (lines 20–27)

The source decides how to treat its input by capability probing:
anything exposing a `select` attribute is taken as already tabular, a
pandas dataframe (which has no `select` attribute) is converted, anything
else raises `TypeError`.  The four relevant shapes of a Python value are
enumerated. -/

inductive EnrichInput
  | sparkDF
  | pandasDF
  | otherWithSelect
  | otherNoSelect
deriving DecidableEq, Repr

/-- Whether `hasattr(x, "select")` holds: a Spark dataframe has `select`;
a pandas dataframe does not; an arbitrary other object may or may not. -/
def hasSelectAttr : EnrichInput → Bool
  | .sparkDF => true
  | .pandasDF => false
  | .otherWithSelect => true
  | .otherNoSelect => false

/-- Whether `isinstance(x, pd.DataFrame)` holds. -/
def isPandasDF : EnrichInput → Bool
  | .pandasDF => true
  | _ => false

/-- Whether the input is the accepted native tabular form (a Spark dataframe). -/
def isSparkDF : EnrichInput → Bool
  | .sparkDF => true
  | _ => false

/-- Lines 20–27: accept anything with a `select` attribute unchanged,
convert a pandas dataframe to Spark, raise `TypeError` otherwise. -/
def checkInputType (x : EnrichInput) : Except String EnrichInput :=
  if hasSelectAttr x then Except.ok x
  else if isPandasDF x then Except.ok EnrichInput.sparkDF
  else Except.error "TypeError"

/-- Whether the input check of lines 20–27 raises. -/
def raisesTypeError (x : EnrichInput) : Bool :=
  match checkInputType x with
  | Except.error _ => true
  | Except.ok _ => false

/-! ## Fiscal variable resolver (`post_proceso_consultas.py`)

A metadata cell is missing (`None`/`NaN`), a number (the integral values
relevant here) or a string; a row is an association list from the sheet's
column names to cells. -/

inductive Cell
  | na
  | num (n : Int)
  | str (s : String)
deriving DecidableEq, Repr

structure MetaRow where
  cells : List (String × Cell)
deriving DecidableEq, Repr

/-- `row.get(col)`: the cell under a column name, missing when the column
is absent. -/
def getCell (r : MetaRow) (c : String) : Cell :=
  (r.cells.lookup c).getD Cell.na

/-- `d[col] = value` on one row. -/
def setCell (r : MetaRow) (c : String) (v : Cell) : MetaRow :=
  ⟨(c, v) :: r.cells.filter (fun p => p.1 != c)⟩

/-- Digits to the number they denote, most significant first. -/
def natOfDigits (ds : List Char) : Nat :=
  ds.foldl (fun acc c => acc * 10 + (c.toNat - '0'.toNat)) 0

/-- Python's `int`/`pd.to_numeric` on a string: optional sign, then digits,
surrounding whitespace ignored; anything else is not numeric. -/
def parseIntStr (s : String) : Option Int :=
  match trimChars s.data with
  | [] => none
  | '-' :: rest =>
    if !rest.isEmpty && rest.all Char.isDigit then some (-(natOfDigits rest : Int))
    else none
  | cs =>
    if cs.all Char.isDigit then some (natOfDigits cs) else none

/-- `pd.to_numeric(.., errors='coerce').astype('Int64')` on one cell:
numbers pass through, numeric strings are parsed, anything non-numeric
becomes missing instead of raising. -/
def toNumericCoerce : Cell → Option Int
  | Cell.na => none
  | Cell.num n => some n
  | Cell.str s => parseIntStr s

/-- `astype(str)` on one cell: `NaN` prints as `"nan"`, numbers print in
decimal, strings are themselves. -/
def cellToStr : Cell → String
  | Cell.na => "nan"
  | Cell.num n => toString n
  | Cell.str s => s

/-- Line 117: `astype(str).str.strip().str.casefold().eq('vigente')`. -/
def isVigenteCell (c : Cell) : Bool :=
  (trimChars (cellToStr c).data).map Char.toLower == "vigente".data

/-- An optional number back to a nullable-`Int64` cell. -/
def optCell : Option Int → Cell
  | none => Cell.na
  | some n => Cell.num n

/-- Lines 116–119: the `'Año Gravable Hasta'` value with the literal
`'Vigente'` (case-insensitively, after stripping) replaced by
`current_year`, then coerced to a nullable integer. -/
def normalizeHasta (current_year : Int) (c : Cell) : Option Int :=
  if isVigenteCell c then some current_year else toNumericCoerce c

/-- Lines 113–125: the per-call normalization of one metadata row on the
private copy `d`: `'Año Gravable Hasta'` via `normalizeHasta`,
`'Año Gravable Desde'` and `'Código de la Variable'` coerced to nullable
integers. -/
def normalizeMetaRow (current_year : Int) (r : MetaRow) : MetaRow :=
  let r1 := setCell r "Año Gravable Hasta"
    (optCell (normalizeHasta current_year (getCell r "Año Gravable Hasta")))
  let r2 := setCell r1 "Año Gravable Desde"
    (optCell (toNumericCoerce (getCell r1 "Año Gravable Desde")))
  setCell r2 "Código de la Variable"
    (optCell (toNumericCoerce (getCell r2 "Código de la Variable")))

/-- Lines 128–134: the filter mask on one normalized row.  `NA` values in
the nullable columns make the comparison `NA`, which the mask treats as
no match; a missing `'Año Gravable Hasta'` means no upper bound.  The raw
`'Código del Formato'` column is compared to the integer `format_id`
without coercion, so only a numeric cell can match. -/
def rowMatches (format_id : Int) (var_number : Int) (anogravable : Int)
    (r : MetaRow) : Bool :=
  (getCell r "Código del Formato" == Cell.num format_id) &&
  (getCell r "Código de la Variable" == Cell.num var_number) &&
  (match getCell r "Año Gravable Desde" with
   | Cell.num d => decide (d ≤ anogravable)
   | _ => false) &&
  (match getCell r "Año Gravable Hasta" with
   | Cell.num h => decide (anogravable ≤ h)
   | _ => true)

/-- Lines 104–111: `re.search(r'^(.*)VAR_(\d+)$', var_code.strip(), IGNORECASE)`,
returning the prefix (group 1, its trailing underscores stripped by
`rstrip("_")`) and the digits (group 2) as a number.  Because `\d+` must
reach the end of the string and the literal `VAR_` sits immediately before
it, the regular expression matches exactly when the maximal trailing digit
run is non-empty and is immediately preceded by `VAR_` case-insensitively;
group 1 is then everything before that occurrence. -/
def parseVarCode (var_code : String) : Option (String × Nat) :=
  let rs := (trimChars var_code.data).reverse
  let ds := rs.takeWhile Char.isDigit
  if ds.isEmpty then none
  else
    match rs.drop ds.length with
    | c1 :: c2 :: c3 :: c4 :: p =>
      if c1 == '_' && c2.toLower == 'r' && c3.toLower == 'a' && c4.toLower == 'v' then
        some (String.mk ((p.dropWhile (fun c => c == '_')).reverse),
              natOfDigits ds.reverse)
      else none
    | _ => none

/-- Lines 150–159: the composed-name parts — for each requested column in
order, the cell's value when present (`pd.notna`), stringified and
stripped. -/
def composeParts (row : MetaRow) (compose_fields : List String) : List String :=
  compose_fields.filterMap (fun c =>
    match getCell row c with
    | Cell.na => none
    | v => some (String.mk (trimChars (cellToStr v).data)))

/-- The default `compose_fields` of the source (lines 58–62). -/
def defaultComposeFields : List String :=
  ["Descripción de la Variable", "Número Casilla", "Año Gravable Desde",
   "Año Gravable Hasta"]

/-- The resolver's successful result (lines 161–168). -/
structure ResolvedVariable where
  name_var : Cell
  composed_name : Option String
  prefijo : String
  var_number : Nat
deriving DecidableEq, Repr

/-- Lines 54–168: `lookup_name_by_year`.  The module-level `DF_METADATA`
is the explicit `df_metadata` parameter; `current_year`, which the source
defaults to the system clock's year, is explicit too.  The function is a
total Lean function into `Option`: `none` is the source's `return None`,
so no input raises. -/
def lookup_name_by_year (df_metadata : List MetaRow) (format_id : Int)
    (var_code : String) (anogravable : Int) (compose_fields : List String)
    (sep : String) (current_year : Int) : Option ResolvedVariable :=
  match parseVarCode var_code with
  | none => none
  | some (prefijo, var_number) =>
    match (df_metadata.map (normalizeMetaRow current_year)).find?
        (rowMatches format_id (var_number : Int) anogravable) with
    | none => none
    | some row =>
      some { name_var := getCell row "Descripción de la Casilla"
             composed_name :=
               if (composeParts row compose_fields).isEmpty then none
               else some (joinSep sep (composeParts row compose_fields))
             prefijo := prefijo
             var_number := var_number }

/-! ## Shared concrete inputs for witnesses and counterexamples -/

/-- A concrete registry row: identifier, effective date, fifth flag. -/
def exReg (n : String) (d : Int) (b : Option Bool) : RegistryRow :=
  ⟨n, d, none, none, none, none, b, "Persona natural", 1⟩

/-- A concrete input record with two candidate identifier columns. -/
def exInput3 : InputRecord :=
  ⟨[("numero_identificacion", "1"), ("otro_id", "2")]⟩

/-- A concrete registry table containing only the identifier `"1"`. -/
def exPersonas3 : List RegistryRow := [exReg "1" 1 none]

/-! ## Claim theorems -/

/-- C9: the taxpayer-type normalization (case-insensitive substring
`"persona nat"` → `"Persona Natural"`, `"persona jur"` → `"Persona
Jurídica"`, anything else unchanged) is idempotent: applying it twice
yields the same result as applying it once, for every input string. -/
theorem norm_tipo_idempotent (s : String) :
    normTipoContribuyente (normTipoContribuyente s) = normTipoContribuyente s := by
  by_cases h1 : containsCI "persona nat" s = true
  · have hs : normTipoContribuyente s = "Persona Natural" := by
      unfold normTipoContribuyente; rw [if_pos h1]
    rw [hs]; decide
  · by_cases h2 : containsCI "persona jur" s = true
    · have hs : normTipoContribuyente s = "Persona Jurídica" := by
        unfold normTipoContribuyente; rw [if_neg h1, if_pos h2]
      rw [hs]; decide
    · have hs : normTipoContribuyente s = s := by
        unfold normTipoContribuyente; rw [if_neg h1, if_neg h2]
      rw [hs]; exact hs

/-- C10: every row of the cleaned registry carries `marca_resp_52 = "SÍ"`
exactly when its `IND_TIENE_RESP_52` is the value `true`; any other value
— `false` or null/missing — yields `"No"`. -/
theorem marca_resp_52_from_flag (rows : List RegistryRow) (c : CleanRow)
    (hc : c ∈ df_with_marca rows) :
    (c.row.ind_tiene_resp_52 = some true → c.marca_resp_52 = "SÍ") ∧
    (c.row.ind_tiene_resp_52 ≠ some true → c.marca_resp_52 = "No") := by
  rcases List.mem_map.mp hc with ⟨r, _, rfl⟩
  constructor
  · intro h
    have h' : r.ind_tiene_resp_52 = some true := h
    simp [marcaResp52, h']
  · intro h
    have h' : ¬ r.ind_tiene_resp_52 = some true := h
    simp [marcaResp52, h']

/-- C10 witness: a registry row whose fifth flag is null survives cleaning
and gets `marca_resp_52 = "No"`. -/
theorem marca_resp_52_from_flag_witness :
    (⟨exReg "9" 0 none, "No"⟩ : CleanRow) ∈ df_with_marca [exReg "9" 0 none] ∧
    (((⟨exReg "9" 0 none, "No"⟩ : CleanRow).row.ind_tiene_resp_52 = some true →
        (⟨exReg "9" 0 none, "No"⟩ : CleanRow).marca_resp_52 = "SÍ") ∧
     ((⟨exReg "9" 0 none, "No"⟩ : CleanRow).row.ind_tiene_resp_52 ≠ some true →
        (⟨exReg "9" 0 none, "No"⟩ : CleanRow).marca_resp_52 = "No")) :=
  ⟨by decide,
   marca_resp_52_from_flag [exReg "9" 0 none] ⟨exReg "9" 0 none, "No"⟩ (by decide)⟩

/-- C5: variable-code parsing is anchored at both ends and
case-insensitive on the literal `VAR_`, with the prefix's trailing
separator stripped: `"FE_VAR_0007"` gives prefix `"FE"` and number `7`,
`"var_12"` gives prefix `""` and number `12`, and `"VARX_5"` fails to
parse, so the resolver yields NotFound on it for every table. -/
theorem var_code_parsing :
    parseVarCode "FE_VAR_0007" = some ("FE", 7) ∧
    parseVarCode "var_12" = some ("", 12) ∧
    parseVarCode "VARX_5" = none ∧
    (∀ (tbl : List MetaRow) (fid ano cy : Int) (cf : List String) (sep : String),
       lookup_name_by_year tbl fid "VARX_5" ano cf sep cy = none) := by
  refine ⟨by decide, by decide, by decide, fun tbl fid ano cy cf sep => ?_⟩
  have h : parseVarCode "VARX_5" = none := by decide
  unfold lookup_name_by_year
  rw [h]

/-- C8 counterexample: a Python value that is neither a Spark nor a pandas
dataframe but exposes a `select` attribute is accepted by the input check
rather than raising `TypeError`, so "raises iff the input is neither"
fails. -/
theorem input_check_counterexample :
    raisesTypeError EnrichInput.otherWithSelect = false ∧
    isSparkDF EnrichInput.otherWithSelect = false ∧
    isPandasDF EnrichInput.otherWithSelect = false := by decide

/-- C8 as amended: the check raises a `TypeError` iff the input has no
`select` attribute and is not a pandas dataframe (a duck-typed test, not
an exact type test); a pandas dataframe is converted to the native form
and processed, and a Spark dataframe passes through unchanged. -/
theorem input_check_duck_typing :
    (∀ x : EnrichInput, raisesTypeError x = true ↔
        (hasSelectAttr x = false ∧ isPandasDF x = false)) ∧
    checkInputType EnrichInput.pandasDF = Except.ok EnrichInput.sparkDF ∧
    checkInputType EnrichInput.sparkDF = Except.ok EnrichInput.sparkDF := by
  refine ⟨fun x => ?_, rfl, rfl⟩
  cases x <;> simp [raisesTypeError, checkInputType, hasSelectAttr, isPandasDF]

/-- C3 counterexample: with `id_field = "otro_id"`, the code still extracts
and joins on the literal column `numero_identificacion`: it returns one
joined row, while an enrichment that honoured `id_field` would return
none. -/
theorem id_field_ignored_counterexample :
    extraer_responsabilidades_rut [exInput3] "otro_id" exPersonas3 ≠
      enrichSpec [exInput3] "otro_id" exPersonas3 ∧
    (extraer_responsabilidades_rut [exInput3] "otro_id" exPersonas3).length = 1 ∧
    enrichSpec [exInput3] "otro_id" exPersonas3 = [] := by decide

/-- C3 as amended: `enrich` extracts the distinct identifiers from the
fixed column `numero_identificacion` — the `id_field` argument is ignored
— and inner-joins the deduplicated registry rows onto the input on
equality between that fixed column and `nit`: every output row satisfies
the join equation, and a record matching no surviving registry row is
dropped. -/
theorem enrich_fixed_column (input : List InputRecord) (f1 f2 : String)
    (int_personas : List RegistryRow) :
    extraer_responsabilidades_rut input f1 int_personas =
      extraer_responsabilidades_rut input f2 int_personas ∧
    extraer_responsabilidades_rut input f1 int_personas =
      enrichSpec input "numero_identificacion" int_personas ∧
    (∀ out ∈ extraer_responsabilidades_rut input f1 int_personas,
        getField out.record "numero_identificacion" = some out.reg.num_nit) ∧
    (∀ rec : InputRecord,
        (∀ c ∈ df_with_marca (fetch_int_personas int_personas
            (distinctIdsFrom input "numero_identificacion")),
          getField rec "numero_identificacion" ≠ some c.row.num_nit) →
        ∀ out ∈ extraer_responsabilidades_rut input f1 int_personas,
          out.record ≠ rec) := by
  refine ⟨rfl, rfl, ?_, ?_⟩
  · intro out hout
    rcases List.mem_flatMap.mp hout with ⟨rec, _, hrec⟩
    rcases List.mem_map.mp hrec with ⟨c, hc, rfl⟩
    exact beq_iff_eq.mp (List.mem_filter.mp hc).2
  · intro rec hnone out hout hrr
    rcases List.mem_flatMap.mp hout with ⟨rec', _, hrec⟩
    rcases List.mem_map.mp hrec with ⟨c, hc, heq⟩
    have hpred := beq_iff_eq.mp (List.mem_filter.mp hc).2
    have hcmem := (List.mem_filter.mp hc).1
    have hrecord : out.record = rec' := by rw [← heq]
    exact (hnone c hcmem) (by rw [← hrr, hrecord]; exact hpred)

/-! ## Reading cells through the normalization -/

theorem lookup_filter_ne {c c2 : String} (l : List (String × Cell)) (h : c2 ≠ c) :
    (l.filter (fun p => p.1 != c)).lookup c2 = l.lookup c2 := by
  induction l with
  | nil => rfl
  | cons kv t ih =>
    rcases kv with ⟨k, v⟩
    by_cases hk : k = c
    · have hf : ((k, v).1 != c) = false := by simp [hk]
      have h2 : (c2 == k) = false := beq_eq_false_iff_ne.mpr (fun he => h (he.trans hk))
      simp [List.filter_cons, hf, List.lookup_cons, h2, ih]
    · have hf : ((k, v).1 != c) = true := by simp [hk]
      cases h3 : (c2 == k) <;>
        simp [List.filter_cons, hf, List.lookup_cons, h3, ih]

theorem getCell_setCell_same (r : MetaRow) (c : String) (v : Cell) :
    getCell (setCell r c v) c = v := by
  simp [getCell, setCell, List.lookup_cons]

theorem getCell_setCell_other (r : MetaRow) (c c2 : String) (v : Cell) (h : c2 ≠ c) :
    getCell (setCell r c v) c2 = getCell r c2 := by
  have h2 : (c2 == c) = false := beq_eq_false_iff_ne.mpr h
  simp [getCell, setCell, List.lookup_cons, h2, lookup_filter_ne _ h]

theorem getCell_norm_formato (cy : Int) (r : MetaRow) :
    getCell (normalizeMetaRow cy r) "Código del Formato" =
      getCell r "Código del Formato" := by
  simp only [normalizeMetaRow]
  rw [getCell_setCell_other _ _ _ _ (by decide),
      getCell_setCell_other _ _ _ _ (by decide),
      getCell_setCell_other _ _ _ _ (by decide)]

theorem getCell_norm_codvar (cy : Int) (r : MetaRow) :
    getCell (normalizeMetaRow cy r) "Código de la Variable" =
      optCell (toNumericCoerce (getCell r "Código de la Variable")) := by
  simp only [normalizeMetaRow]
  rw [getCell_setCell_same,
      getCell_setCell_other _ _ _ _ (by decide),
      getCell_setCell_other _ _ _ _ (by decide)]

theorem getCell_norm_desde (cy : Int) (r : MetaRow) :
    getCell (normalizeMetaRow cy r) "Año Gravable Desde" =
      optCell (toNumericCoerce (getCell r "Año Gravable Desde")) := by
  simp only [normalizeMetaRow]
  rw [getCell_setCell_other _ _ _ _ (by decide), getCell_setCell_same,
      getCell_setCell_other _ _ _ _ (by decide)]

theorem getCell_norm_hasta (cy : Int) (r : MetaRow) :
    getCell (normalizeMetaRow cy r) "Año Gravable Hasta" =
      optCell (normalizeHasta cy (getCell r "Año Gravable Hasta")) := by
  simp only [normalizeMetaRow]
  rw [getCell_setCell_other _ _ _ _ (by decide),
      getCell_setCell_other _ _ _ _ (by decide), getCell_setCell_same]

/-- The metadata row of the spec's range-containment test: formato 210,
variable 33, valid from 2020, valid to the literal `"Vigente"`. -/
def exMetaRow210 : MetaRow :=
  ⟨[("Código del Formato", Cell.num 210), ("Código de la Variable", Cell.num 33),
    ("Año Gravable Desde", Cell.num 2020), ("Año Gravable Hasta", Cell.str "Vigente"),
    ("Descripción de la Casilla", Cell.str "Total patrimonio")]⟩

/-- C4: a metadata row is selected iff `format_id` matches exactly, the
variable number matches exactly, the validity start is present and at most
`tax_year`, and the validity end is absent or at least `tax_year` — where
beforehand a validity-end value case-insensitively equal to `"Vigente"`
becomes `current_year` and non-numeric values in the bound and
variable-number columns are coerced to missing rather than raising.  In
particular, the lookup at formato 210, `"VAR_0033"`, year 2022 against
the row `{210, 33, 2020, "Vigente"}` with `current_year = 2024` matches. -/
theorem range_containment (r : MetaRow) (cy fid vn ano : Int) :
    (rowMatches fid vn ano (normalizeMetaRow cy r) = true ↔
      (getCell r "Código del Formato" = Cell.num fid ∧
       toNumericCoerce (getCell r "Código de la Variable") = some vn ∧
       (∃ d, toNumericCoerce (getCell r "Año Gravable Desde") = some d ∧ d ≤ ano) ∧
       (normalizeHasta cy (getCell r "Año Gravable Hasta") = none ∨
        ∃ h, normalizeHasta cy (getCell r "Año Gravable Hasta") = some h ∧
          ano ≤ h))) ∧
    (lookup_name_by_year [exMetaRow210] 210 "VAR_0033" 2022
        defaultComposeFields "_" 2024).isSome = true := by
  refine ⟨?_, by decide⟩
  unfold rowMatches
  rw [getCell_norm_formato, getCell_norm_codvar, getCell_norm_desde,
      getCell_norm_hasta]
  rcases hcv : toNumericCoerce (getCell r "Código de la Variable") with _ | cvn <;>
    rcases hde : toNumericCoerce (getCell r "Año Gravable Desde") with _ | dn <;>
      rcases hha : normalizeHasta cy (getCell r "Año Gravable Hasta") with _ | hn <;>
        simp [optCell, beq_iff_eq, and_assoc]

/-- C7: the resolver never raises — it is a total function into `Option` —
and both failure modes are the normal value `none`: an unparsable
`var_code` yields `none`, the absence of any matching row yields `none`,
and in particular a lookup for `format_id = 999` on a table whose rows all
carry a different `Código del Formato` yields `none`. -/
theorem notfound_total :
    (∀ (tbl : List MetaRow) (fid ano cy : Int) (vc : String) (cf : List String)
        (sep : String), parseVarCode vc = none →
        lookup_name_by_year tbl fid vc ano cf sep cy = none) ∧
    (∀ (tbl : List MetaRow) (fid ano cy : Int) (vc : String) (cf : List String)
        (sep : String) (p : String) (nv : Nat),
        parseVarCode vc = some (p, nv) →
        (∀ row ∈ tbl.map (normalizeMetaRow cy),
          rowMatches fid (nv : Int) ano row = false) →
        lookup_name_by_year tbl fid vc ano cf sep cy = none) ∧
    (∀ (tbl : List MetaRow) (ano cy : Int) (cf : List String) (sep : String),
        (∀ r ∈ tbl, getCell r "Código del Formato" ≠ Cell.num 999) →
        lookup_name_by_year tbl 999 "VAR_1" ano cf sep cy = none) := by
  refine ⟨?_, ?_, ?_⟩
  · intro tbl fid ano cy vc cf sep hparse
    unfold lookup_name_by_year
    rw [hparse]
  · intro tbl fid ano cy vc cf sep p nv hparse hnone
    have hfind : (tbl.map (normalizeMetaRow cy)).find?
        (rowMatches fid (nv : Int) ano) = none :=
      List.find?_eq_none.mpr (fun row hrow => by simp [hnone row hrow])
    unfold lookup_name_by_year
    split
    · rfl
    next prefijo var_number heq =>
      rw [hparse] at heq
      injection heq with heq1
      injection heq1 with h1 h2
      subst h1; subst h2
      rw [hfind]
  · intro tbl ano cy cf sep hfmt
    have hparse : parseVarCode "VAR_1" = some ("", 1) := by decide
    have hfind : (tbl.map (normalizeMetaRow cy)).find?
        (rowMatches 999 ((1 : Nat) : Int) ano) = none := by
      refine List.find?_eq_none.mpr (fun row hrow => ?_)
      rcases List.mem_map.mp hrow with ⟨r, hr, rfl⟩
      unfold rowMatches
      rw [getCell_norm_formato]
      have hne : (getCell r "Código del Formato" == Cell.num 999) = false :=
        beq_eq_false_iff_ne.mpr (hfmt r hr)
      simp [hne]
    unfold lookup_name_by_year
    split
    · rfl
    next prefijo var_number heq =>
      rw [hparse] at heq
      injection heq with heq1
      injection heq1 with h1 h2
      subst h1; subst h2
      rw [hfind]

/-- The metadata row of the compose test: only the second default compose
field (`Número Casilla`) is non-missing among the requested ones. -/
def exRow6 : MetaRow :=
  ⟨[("Código del Formato", Cell.num 210), ("Código de la Variable", Cell.num 33),
    ("Año Gravable Desde", Cell.num 2020), ("Año Gravable Hasta", Cell.na),
    ("Número Casilla", Cell.str " 33 ")]⟩

def exTbl6 : List MetaRow := [exRow6]

def exCf6 : List String := ["Descripción de la Variable", "Número Casilla"]

def exNormRow6 : MetaRow := normalizeMetaRow 2024 exRow6

def exRes6 : ResolvedVariable := ⟨Cell.na, some "33", "", 33⟩

/-- C6: for the matched row, `composed_name` is the `sep`-join, in list
order, of the stringified and trimmed values of the present fields of
`compose_fields`; with zero present fields it is `none` (not the empty
string), and with exactly one present field it is that single trimmed
value with no leading separator. -/
theorem composed_name_semantics (tbl : List MetaRow) (fid ano cy : Int)
    (vc : String) (cf : List String) (sep : String) (p : String) (nv : Nat)
    (res : ResolvedVariable) (row : MetaRow)
    (hparse : parseVarCode vc = some (p, nv))
    (hfind : (tbl.map (normalizeMetaRow cy)).find?
        (rowMatches fid (nv : Int) ano) = some row)
    (hres : lookup_name_by_year tbl fid vc ano cf sep cy = some res) :
    res.composed_name =
      (if (composeParts row cf).isEmpty then none
       else some (joinSep sep (composeParts row cf))) ∧
    ((∀ c ∈ cf, getCell row c = Cell.na) → res.composed_name = none) ∧
    (∀ v, composeParts row cf = [v] → res.composed_name = some v) := by
  unfold lookup_name_by_year at hres
  split at hres
  · exact Option.noConfusion hres
  next prefijo var_number heq =>
  rw [hparse] at heq
  injection heq with heq1
  injection heq1 with h1 h2
  subst h1; subst h2
  split at hres
  · exact Option.noConfusion hres
  next row' heq2 =>
  rw [hfind] at heq2
  injection heq2 with hrow
  subst hrow
  have hcomp : res.composed_name =
      (if (composeParts row cf).isEmpty then none
       else some (joinSep sep (composeParts row cf))) := by
    rw [← Option.some_inj.mp hres]
  refine ⟨hcomp, ?_, ?_⟩
  · intro hall
    have hnil : composeParts row cf = [] := by
      unfold composeParts
      refine List.filterMap_eq_nil_iff.mpr (fun c hcmem => ?_)
      rw [hall c hcmem]
    rw [hcomp, hnil]
    rfl
  · intro v hv
    rw [hcomp, hv]
    rfl

/-- C6 witness: the compose semantics at the concrete one-present-field
row, with the hypotheses discharged by computation. -/
theorem composed_name_semantics_witness :
    (parseVarCode "VAR_0033" = some ("", 33) ∧
     (exTbl6.map (normalizeMetaRow 2024)).find?
        (rowMatches 210 ((33 : Nat) : Int) 2022) = some exNormRow6 ∧
     lookup_name_by_year exTbl6 210 "VAR_0033" 2022 exCf6 "_" 2024 =
       some exRes6) ∧
    (exRes6.composed_name =
       (if (composeParts exNormRow6 exCf6).isEmpty then none
        else some (joinSep "_" (composeParts exNormRow6 exCf6))) ∧
     ((∀ c ∈ exCf6, getCell exNormRow6 c = Cell.na) →
        exRes6.composed_name = none) ∧
     (∀ v, composeParts exNormRow6 exCf6 = [v] →
        exRes6.composed_name = some v)) :=
  ⟨⟨by decide, by decide, by decide⟩,
   composed_name_semantics exTbl6 210 2022 2024 "VAR_0033" exCf6 "_" "" 33
     exRes6 exNormRow6 (by decide) (by decide) (by decide)⟩

/-! ## The dedup pipeline keeps exactly the most recent row per identifier -/

theorem keepFirstPerNit_subset {rows : List RegistryRow} {seen : List String}
    {r : RegistryRow} (h : r ∈ keepFirstPerNit rows seen) : r ∈ rows := by
  induction rows generalizing seen with
  | nil => simp [keepFirstPerNit] at h
  | cons a rs ih =>
    by_cases hs : seen.contains a.num_nit = true
    · rw [keepFirstPerNit, if_pos hs] at h
      exact List.mem_cons_of_mem _ (ih h)
    · rw [keepFirstPerNit, if_neg hs] at h
      rcases List.mem_cons.mp h with rfl | h2
      · exact List.mem_cons_self _ _
      · exact List.mem_cons_of_mem _ (ih h2)

theorem keepFirstPerNit_nit_not_seen {rows : List RegistryRow} {seen : List String}
    {r : RegistryRow} (h : r ∈ keepFirstPerNit rows seen) :
    seen.contains r.num_nit = false := by
  induction rows generalizing seen with
  | nil => simp [keepFirstPerNit] at h
  | cons a rs ih =>
    by_cases hs : seen.contains a.num_nit = true
    · rw [keepFirstPerNit, if_pos hs] at h
      exact ih h
    · rw [keepFirstPerNit, if_neg hs] at h
      rcases List.mem_cons.mp h with rfl | h2
      · simpa using hs
      · have h3 := ih h2
        simp only [List.contains_cons, Bool.or_eq_false_iff] at h3
        exact h3.2

theorem keepFirstPerNit_count (rows : List RegistryRow) (seen : List String)
    (n : String) :
    ((keepFirstPerNit rows seen).filter (fun r => r.num_nit == n)).length ≤ 1 := by
  induction rows generalizing seen with
  | nil => simp [keepFirstPerNit]
  | cons a rs ih =>
    by_cases hs : seen.contains a.num_nit = true
    · rw [keepFirstPerNit, if_pos hs]
      exact ih _
    · rw [keepFirstPerNit, if_neg hs]
      by_cases hn : (a.num_nit == n) = true
      · have hnil : (keepFirstPerNit rs (a.num_nit :: seen)).filter
            (fun r => r.num_nit == n) = [] := by
          refine List.filter_eq_nil_iff.mpr (fun r hr => ?_)
          have h2 := keepFirstPerNit_nit_not_seen hr
          simp only [List.contains_cons, Bool.or_eq_false_iff] at h2
          intro hrn
          have : r.num_nit = a.num_nit := (beq_iff_eq.mp hrn).trans
            (beq_iff_eq.mp hn).symm
          rw [beq_eq_false_iff_ne] at h2
          exact h2.1 this
        simp [List.filter_cons, hn, hnil]
      · simp only [List.filter_cons, hn, Bool.false_eq_true, if_false]
        exact ih _

theorem keepFirstPerNit_exists {rows : List RegistryRow} {seen : List String}
    {n : String} (hseen : seen.contains n = false)
    (h : ∃ r ∈ rows, r.num_nit = n) :
    ∃ c ∈ keepFirstPerNit rows seen, c.num_nit = n := by
  induction rows generalizing seen with
  | nil =>
    rcases h with ⟨r, hr, _⟩
    exact absurd hr (List.not_mem_nil r)
  | cons a rs ih =>
    rcases h with ⟨r, hr, hrn⟩
    by_cases hs : seen.contains a.num_nit = true
    · have han : a.num_nit ≠ n := by
        intro he
        rw [he, hseen] at hs
        cases hs
      rw [keepFirstPerNit, if_pos hs]
      refine ih hseen ?_
      rcases List.mem_cons.mp hr with rfl | hr2
      · exact absurd hrn han
      · exact ⟨r, hr2, hrn⟩
    · rw [keepFirstPerNit, if_neg hs]
      by_cases han : a.num_nit = n
      · exact ⟨a, List.mem_cons_self a _, han⟩
      · have hseen2 : (a.num_nit :: seen).contains n = false := by
          simp only [List.contains_cons, Bool.or_eq_false_iff]
          exact ⟨beq_eq_false_iff_ne.mpr (fun he => han he.symm), hseen⟩
        rcases List.mem_cons.mp hr with rfl | hr2
        · exact absurd hrn han
        · rcases ih hseen2 ⟨r, hr2, hrn⟩ with ⟨c, hc, hcn⟩
          exact ⟨c, List.mem_cons_of_mem _ hc, hcn⟩

theorem mem_duplicated_nits {rows : List RegistryRow} {n : String}
    (h : 2 ≤ countNit rows n) : n ∈ duplicated_nits rows := by
  unfold duplicated_nits
  refine List.mem_filter.mpr ⟨?_, ?_⟩
  · rw [List.mem_dedup]
    have hne : rows.filter (fun r => r.num_nit == n) ≠ [] := by
      intro hnil
      unfold countNit at h
      rw [hnil] at h
      simp at h
    rcases List.exists_mem_of_ne_nil _ hne with ⟨r, hr⟩
    have h2 := List.mem_filter.mp hr
    exact List.mem_map.mpr ⟨r, h2.1, beq_iff_eq.mp h2.2⟩
  · exact decide_eq_true (lt_of_lt_of_le one_lt_two h)

theorem group_dupes_eq {rows : List RegistryRow} {n : String}
    (h : n ∈ duplicated_nits rows) :
    (df_dupes rows).filter (fun r => r.num_nit == n) =
      rows.filter (fun r => r.num_nit == n) := by
  unfold df_dupes
  rw [List.filter_filter]
  refine List.filter_congr (fun r hr => ?_)
  by_cases hb : (r.num_nit == n) = true
  · have hmem : r.num_nit ∈ duplicated_nits rows := by
      rw [beq_iff_eq.mp hb]
      exact h
    simp [hb, hmem]
  · simp [hb]

/-- C1: after resolution the cleaned registry carries at most one row per
distinct identifier, so the inner join attaches at most one registry row
to any input record: per record the joined output has at most one row. -/
theorem dedup_invariant (rows : List RegistryRow) (rec : InputRecord)
    (n : String) :
    ((df_with_marca rows).filter (fun c => c.row.num_nit == n)).length ≤ 1 ∧
    (joinOn "numero_identificacion" [rec] (df_with_marca rows)).length ≤ 1 := by
  have hclean : ∀ m : String,
      ((df_with_marca rows).filter (fun c => c.row.num_nit == m)).length ≤ 1 := by
    intro m
    unfold df_with_marca df_clean
    rw [← List.countP_eq_length_filter, List.countP_map,
        List.countP_eq_length_filter]
    exact keepFirstPerNit_count _ _ _
  refine ⟨hclean n, ?_⟩
  unfold joinOn
  rw [List.flatMap_cons, List.flatMap_nil, List.append_nil, List.length_map]
  cases hv : getField rec "numero_identificacion" with
  | none =>
    have hnil : (df_with_marca rows).filter
        (fun c => (none : Option String) == some c.row.num_nit) = [] :=
      List.filter_eq_nil_iff.mpr (fun c _ => by simp)
    rw [hnil]
    simp
  | some v =>
    have hcong : (df_with_marca rows).filter
        (fun c => some v == some c.row.num_nit) =
        (df_with_marca rows).filter (fun c => c.row.num_nit == v) := by
      refine List.filter_congr (fun c _ => ?_)
      refine Bool.eq_iff_iff.mpr ⟨fun h2 => ?_, fun h2 => ?_⟩
      · exact beq_iff_eq.mpr (Option.some_inj.mp (beq_iff_eq.mp h2)).symm
      · exact beq_iff_eq.mpr (congrArg some (beq_iff_eq.mp h2).symm)
    rw [hcong]
    exact hclean v

/-- C2: when an identifier has at least two fetched rows whose effective
dates are pairwise distinct, a row for it survives the cleaning, and every
surviving row for it carries the maximal `FEC_CAMBIO` of its group. -/
theorem recency_tie_break (rows : List RegistryRow) (n : String)
    (hcount : 2 ≤ countNit rows n)
    (hdistinct : (rows.filter (fun r => r.num_nit == n)).Pairwise
      (fun a b => a.fec_cambio ≠ b.fec_cambio)) :
    (∃ c ∈ df_with_marca rows, c.row.num_nit = n) ∧
    (∀ c ∈ df_with_marca rows, c.row.num_nit = n →
      ∀ s ∈ rows, s.num_nit = n → s.fec_cambio ≤ c.row.fec_cambio) := by
  have hdup : n ∈ duplicated_nits rows := mem_duplicated_nits hcount
  have hgroup : (df_dupes rows).filter (fun r => r.num_nit == n) =
      rows.filter (fun r => r.num_nit == n) := group_dupes_eq hdup
  have hne : (df_dupes rows).filter (fun r => r.num_nit == n) ≠ [] := by
    rw [hgroup]
    intro hnil
    unfold countNit at hcount
    rw [hnil] at hcount
    simp at hcount
  obtain ⟨m, hm⟩ : ∃ m, ((df_dupes rows).filter
      (fun r => r.num_nit == n)).argmax (fun r => r.fec_cambio) = some m := by
    cases hq : ((df_dupes rows).filter (fun r => r.num_nit == n)).argmax
        (fun r => r.fec_cambio) with
    | none => exact absurd (List.argmax_eq_none.mp hq) hne
    | some m => exact ⟨m, rfl⟩
  have hmmem : m ∈ rows.filter (fun r => r.num_nit == n) := by
    rw [← hgroup]
    exact List.argmax_mem hm
  have hmn : m.num_nit = n := beq_iff_eq.mp (List.mem_filter.mp hmmem).2
  have hmmax : ∀ s ∈ rows, s.num_nit = n → s.fec_cambio ≤ m.fec_cambio := by
    intro s hs hsn
    have hsg : s ∈ (df_dupes rows).filter (fun r => r.num_nit == n) := by
      rw [hgroup]
      exact List.mem_filter.mpr ⟨hs, beq_iff_eq.mpr hsn⟩
    exact List.le_of_mem_argmax hsg hm
  have hmclean : m ∈ df_dupes_cleaned rows := by
    unfold df_dupes_cleaned
    exact List.mem_filterMap.mpr ⟨n, hdup, hm⟩
  have hnon : ∀ r ∈ df_non_dupes rows, r.num_nit ≠ n := by
    intro r hr he
    have h2 := (List.mem_filter.mp hr).2
    have hcont : (duplicated_nits rows).contains n = true := List.elem_iff.mpr hdup
    rw [he, hcont] at h2
    simp at h2
  have huniq : ∀ c ∈ df_dupes_cleaned rows, c.num_nit = n → c = m := by
    intro c hc hcn
    rcases List.mem_filterMap.mp hc with ⟨n', hn', hc'⟩
    have hcm : c ∈ (df_dupes rows).filter (fun r => r.num_nit == n') :=
      List.argmax_mem hc'
    have hcn' : c.num_nit = n' := beq_iff_eq.mp (List.mem_filter.mp hcm).2
    rw [hcn] at hcn'
    subst hcn'
    rw [hm] at hc'
    exact (Option.some_inj.mp hc').symm
  have hex : ∃ c ∈ df_clean rows, c.num_nit = n := by
    unfold df_clean
    exact keepFirstPerNit_exists rfl ⟨m, List.mem_append_right _ hmclean, hmn⟩
  have hall : ∀ c ∈ df_clean rows, c.num_nit = n → c = m := by
    intro c hc hcn
    have hc0 := keepFirstPerNit_subset hc
    rcases List.mem_append.mp hc0 with h0 | h0
    · exact absurd hcn (hnon c h0)
    · exact huniq c h0 hcn
  constructor
  · rcases hex with ⟨c, hc, hcn⟩
    exact ⟨⟨c, marcaResp52 c.ind_tiene_resp_52⟩, List.mem_map.mpr ⟨c, hc, rfl⟩, hcn⟩
  · intro c hc hcn s hs hsn
    rcases List.mem_map.mp hc with ⟨r, hr, rfl⟩
    have hrm : r = m := hall r hr hcn
    rw [hrm]
    exact hmmax s hs hsn

/-- Two fetched rows for the identifier `"1"`, dates 1 and 5, plus an
unrelated unique row. -/
def exDupRows : List RegistryRow :=
  [exReg "1" 1 none, exReg "1" 5 none, exReg "2" 0 (some true)]

/-- C2 witness: the recency tie-break at a concrete duplicated identifier. -/
theorem recency_tie_break_witness :
    (2 ≤ countNit exDupRows "1" ∧
     (exDupRows.filter (fun r => r.num_nit == "1")).Pairwise
       (fun a b => a.fec_cambio ≠ b.fec_cambio)) ∧
    ((∃ c ∈ df_with_marca exDupRows, c.row.num_nit = "1") ∧
     (∀ c ∈ df_with_marca exDupRows, c.row.num_nit = "1" →
       ∀ s ∈ exDupRows, s.num_nit = "1" → s.fec_cambio ≤ c.row.fec_cambio)) :=
  ⟨⟨by decide, by decide⟩,
   recency_tie_break exDupRows "1" (by decide) (by decide)⟩

end DatabricksUtil
